import Mathlib

/-!
Shallow embedding of the fswitcher daemon (src/main.rs, src/utils/keys.rs):
a desktop daemon correlating raw keyboard input with accessibility
focus/window bus signals.  Pure Rust logic is translated to executable Lean
definitions; the mutable HashMap of binding slots becomes an association
list with replace-on-insert semantics; panics (Option.unwrap on a missing
header) become Option.none results.
-/

namespace Fswitcher

/-! ### Binding table (src/main.rs lines 110-113, 204-211)

`b_bindings : HashMap<u32, Option<String>>` is modelled as an association
list of (key, value) pairs.  `mapGet` is `HashMap::get` (returns the stored
value wrapped in an outer Option recording key presence); `mapInsert` is
`HashMap::insert` (replaces the value when the key is present). -/

abbrev Bindings := List (Nat × Option String)

def mapGet (m : Bindings) (k : Nat) : Option (Option String) :=
  (m.find? (fun p => p.1 == k)).map (fun p => p.2)

def mapInsert (m : Bindings) (k : Nat) (v : Option String) : Bindings :=
  if m.any (fun p => p.1 == k) then
    m.map (fun p => if p.1 == k then (k, v) else p)
  else
    m ++ [(k, v)]

/-- Initial table from main.rs lines 110-113: keys 1 (built-in keyboard)
and 8195 (external keyboard), both holding None. -/
def b_bindings_init : Bindings := [(1, none), (8195, none)]

/-- The binding-table update applied to an accepted focus signal carrying
subject path `path` (main.rs lines 204-211).  Note the occupancy test uses
`HashMap::get(..).is_some()`, i.e. key presence, not value presence. -/
def update_bindings (path : String) (b : Bindings) : Bindings :=
  if (mapGet b 1).isSome && (mapGet b 8195).isSome then
    mapInsert (mapInsert b 8195 ((mapGet b 1).getD none)) 1 (some path)
  else if (mapGet b 1).isNone && (mapGet b 8195).isNone then
    mapInsert b 8195 (some path)
  else
    mapInsert b 1 (some path)

/-! ### Focus signal classifier (src/main.rs lines 181-229) -/

/-- The match condition from main.rs lines 193-198, member literals
reproduced exactly (the Focus member literal is the string Focis). -/
def is_focus_event (interface member : String) : Bool :=
  (interface == "org.a11y.atspi.Event.Focus" && member == "Focis")
    || (interface == "org.a11y.atspi.Event.Window" && member == "Activate")
    || (interface == "org.a11y.atspi.Event.Window" && member == "activate")

/-- The classifier of spec section 4.2, built on the source match condition:
on a relevant interface/member pair it returns the path verbatim. -/
def classify (interface member path : String) : Option String :=
  if is_focus_event interface member then some path else none

/-- The three optional header fields of a bus message consumed by
handle_dbus_message. -/
structure MsgHeader where
  member : Option String
  interface : Option String
  path : Option String

/-- handle_dbus_message (main.rs lines 181-229).  The logging statement at
lines 182-186 calls `.unwrap()` on the member and path headers, so a
message lacking either aborts: modelled as `none`.  Otherwise the
`if let` at lines 187-191 requires all three headers; when they are
present and the match condition holds, the binding table is updated. -/
def handle_dbus_message (msg : MsgHeader) (b_bindings : Bindings) :
    Option Bindings :=
  match msg.member with
  | none => none
  | some _ =>
    match msg.path with
    | none => none
    | some _ =>
      match msg.member, msg.interface, msg.path with
      | some member, some interface, some path =>
        if is_focus_event interface member then
          some (update_bindings path b_bindings)
        else
          some b_bindings
      | _, _, _ => some b_bindings

/-- Folding a list of accepted subject paths through the update policy,
starting from the initial table. -/
def run_updates (ps : List String) : Bindings :=
  List.foldl (fun b p => update_bindings p b) b_bindings_init ps

/-! ### Keyboard state tracker (src/main.rs lines 48-60, 148-179;
src/utils/keys.rs) -/

/-- The tracked modifier keys of src/utils/keys.rs, with their scan
codes. -/
inductive Key where
  | LeftCtrl
  | RightCtrl
deriving DecidableEq

def Key.key : Key → Nat
  | .LeftCtrl => 29
  | .RightCtrl => 97

/-- Per-device state (struct KeyboardState, main.rs lines 48-51). -/
structure KeyboardState where
  ctrl_pressed : Bool
  last_device_name : String
deriving DecidableEq

/-- KeyboardState::new (main.rs lines 54-59). -/
def KeyboardState.new : KeyboardState := ⟨false, ""⟩

inductive KeyState where
  | Pressed
  | Released
deriving DecidableEq

/-- The fields of a libinput keyboard event consumed by
handle_keyboard_event: device identity (product id, vendor id, name),
key code, key transition.  device_id is the product id
(main.rs line 151). -/
structure KeyboardEvent where
  device_id : Nat
  device_name : String
  vendor_id : Nat
  key : Nat
  key_state : KeyState
deriving DecidableEq

/-- A libinput event is either a keyboard event or something else
(ignored by the handler). -/
inductive LibinputEvent where
  | keyboard (ev : KeyboardEvent)
  | other
deriving DecidableEq

def deviceOf : LibinputEvent → Nat
  | .keyboard ev => ev.device_id
  | .other => 0

/-- The console notifications emitted by handle_keyboard_event
(main.rs lines 163-168 and 174). -/
inductive Notification where
  | engaged (name : String) (vendor : Nat) (product : Nat)
  | released (name : String)
deriving DecidableEq

/-- The per-device table `keyboard_states` is modelled as a total function;
`entry(..).or_insert_with(KeyboardState::new)` makes every unseen device
behave as holding KeyboardState.new, so the function model with pointwise
update is behaviourally faithful. -/
def updateAt (states : Nat → KeyboardState) (d : Nat) (s : KeyboardState) :
    Nat → KeyboardState :=
  fun d' => if d' = d then s else states d'

/-- handle_keyboard_event (main.rs lines 148-179), returning the new table
and the notification printed, if any. -/
def handle_keyboard_event (event : LibinputEvent)
    (states : Nat → KeyboardState) :
    (Nat → KeyboardState) × Option Notification :=
  match event with
  | .other => (states, none)
  | .keyboard keyboard_event =>
    let device_id := keyboard_event.device_id
    let key := keyboard_event.key
    let is_ctrl := key == Key.LeftCtrl.key || key == Key.RightCtrl.key
    let state := states device_id
    match keyboard_event.key_state with
    | .Pressed =>
      if is_ctrl && !state.ctrl_pressed then
        (updateAt states device_id ⟨true, keyboard_event.device_name⟩,
          some (.engaged keyboard_event.device_name keyboard_event.vendor_id
            keyboard_event.device_id))
      else
        (states, none)
    | .Released =>
      if is_ctrl && state.ctrl_pressed then
        (updateAt states device_id ⟨false, state.last_device_name⟩,
          some (.released state.last_device_name))
      else
        (states, none)

/-- Tag a produced notification with the device id of its event. -/
def tagOf (e : LibinputEvent) : Option Notification → List (Nat × Notification)
  | none => []
  | some n => [(deviceOf e, n)]

/-- Processing a sequence of libinput events in order, collecting the
notifications tagged with the device id of the event that produced them. -/
def runEvents :
    (Nat → KeyboardState) → List LibinputEvent →
      (Nat → KeyboardState) × List (Nat × Notification)
  | states, [] => (states, [])
  | states, e :: rest =>
    let step := handle_keyboard_event e states
    let r := runEvents step.1 rest
    (r.1, tagOf e step.2 ++ r.2)

/-- The notifications attributed to device d, in order. -/
def notifsFor (d : Nat) (ns : List (Nat × Notification)) : List Notification :=
  (ns.filter (fun p => p.1 == d)).map (fun p => p.2)

/-- Strict alternation of engaged/released notifications: the Bool argument
is the modifier-held flag expected before the next notification, so
`alternatingB false` states the run starts with an engaged notification. -/
def alternatingB : Bool → List Notification → Bool
  | _, [] => true
  | pressed, .engaged _ _ _ :: rest => !pressed && alternatingB true rest
  | pressed, .released _ :: rest => pressed && alternatingB false rest

/-! ### Event multiplexer (src/main.rs lines 115-145) -/

/-- The up-to-three bus subscriptions of main.rs lines 127-143. -/
inductive BusSource where
  | object
  | window
  | focus
deriving DecidableEq

/-- One readiness outcome of the select loop: either the device source is
ready (dispatch yields a batch of events, or a dispatch error), or one of
the three bus streams yields a message (decoded header, or a decode
error). -/
inductive LoopEvent where
  | deviceReady (r : Except String (List LibinputEvent))
  | bus (src : BusSource) (m : Except Unit MsgHeader)

/-- The mutable state owned by the loop. -/
structure LoopState where
  keyboard_states : Nat → KeyboardState
  b_bindings : Bindings

/-- Outcome of one loop iteration: continue with a new state, or terminate
the process (an error propagated by the question-mark operator, or a
panic inside a handler). -/
inductive StepResult where
  | next (s : LoopState)
  | fatal

/-- Routing of a bus message by source (main.rs lines 127-143).  The
object-stream arm at line 129 has its handler call commented out, so a
decoded object-stream message has no effect. -/
def dispatch_bus (src : BusSource) (m : Except Unit MsgHeader)
    (b : Bindings) : Option Bindings :=
  match m with
  | .error _ => some b
  | .ok h =>
    match src with
    | .object => some b
    | .window => handle_dbus_message h b
    | .focus => handle_dbus_message h b

/-- One iteration of the select loop (main.rs lines 115-145): a device
dispatch error propagates out via the question-mark operator at line 121;
a batch of device events is drained through handle_keyboard_event; a bus
message is routed through dispatch_bus (a decode error is dropped by the
`if let Ok`). -/
def loop_step (e : LoopEvent) (s : LoopState) : StepResult :=
  match e with
  | .deviceReady (.error _) => .fatal
  | .deviceReady (.ok evs) =>
    .next ⟨(runEvents s.keyboard_states evs).1, s.b_bindings⟩
  | .bus src m =>
    match dispatch_bus src m s.b_bindings with
    | none => .fatal
    | some b => .next ⟨s.keyboard_states, b⟩

/-! ### Helper lemmas about the association-list map model -/

lemma mapGet_map_repl_self (k : Nat) (v : Option String) :
    ∀ m : Bindings, (mapGet m k).isSome = true →
      mapGet (m.map (fun p => if p.1 == k then (k, v) else p)) k = some v := by
  intro m
  induction m with
  | nil => intro h; simp [mapGet] at h
  | cons q m ih =>
    intro h
    by_cases hq : (q.1 == k) = true
    · simp [mapGet, List.find?, hq]
    · simp only [mapGet, List.map_cons, List.find?] at h ⊢
      rw [if_neg hq]
      simp only [List.find?, hq] at h ⊢
      exact ih h

lemma mapGet_map_repl_ne (k k' : Nat) (v : Option String) (hne : k' ≠ k) :
    ∀ m : Bindings,
      mapGet (m.map (fun p => if p.1 == k then (k, v) else p)) k'
        = mapGet m k' := by
  intro m
  induction m with
  | nil => rfl
  | cons q m ih =>
    by_cases hq : (q.1 == k) = true
    · have hkk : (k == k') = false :=
        beq_eq_false_iff_ne.mpr (fun hh => hne hh.symm)
      simp only [mapGet, List.map_cons, List.find?]
      rw [if_pos hq]
      have hq1 : q.1 = k := beq_iff_eq.mp hq
      have hq' : (q.1 == k') = false := by
        rw [hq1]
        exact beq_eq_false_iff_ne.mpr (fun hh => hne hh.symm)
      simp only [List.find?, hq', hkk]
      exact ih
    · simp only [mapGet, List.map_cons, List.find?]
      rw [if_neg hq]
      by_cases hq' : (q.1 == k') = true
      · simp [List.find?, hq']
      · simp only [List.find?, hq']
        exact ih

lemma mapGet_append_ne (k k' : Nat) (v : Option String) (hne : k' ≠ k) :
    ∀ m : Bindings, mapGet (m ++ [(k, v)]) k' = mapGet m k' := by
  intro m
  induction m with
  | nil =>
    have hkk : (k == k') = false :=
      beq_eq_false_iff_ne.mpr (fun hh => hne hh.symm)
    simp [mapGet, List.find?, hkk]
  | cons q m ih =>
    by_cases hq : (q.1 == k') = true
    · simp [mapGet, List.find?, hq]
    · simp only [mapGet, List.cons_append, List.find?, hq] at ih ⊢
      exact ih

lemma any_of_get_isSome (m : Bindings) (k : Nat)
    (h : (mapGet m k).isSome = true) :
    m.any (fun p => p.1 == k) = true := by
  induction m with
  | nil => simp [mapGet] at h
  | cons q m ih =>
    by_cases hq : (q.1 == k) = true
    · simp [List.any, hq]
    · simp only [mapGet, List.find?, hq] at h
      simp only [List.any, hq, Bool.false_or]
      exact ih h

lemma mapGet_mapInsert_self (m : Bindings) (k : Nat) (v : Option String)
    (h : (mapGet m k).isSome = true) :
    mapGet (mapInsert m k v) k = some v := by
  unfold mapInsert
  rw [if_pos (any_of_get_isSome m k h)]
  exact mapGet_map_repl_self k v m h

lemma mapGet_mapInsert_ne (m : Bindings) (k k' : Nat) (v : Option String)
    (hne : k' ≠ k) :
    mapGet (mapInsert m k v) k' = mapGet m k' := by
  unfold mapInsert
  split
  · exact mapGet_map_repl_ne k k' v hne m
  · exact mapGet_append_ne k k' v hne m

/-- On a table of the shape the program maintains, the update always takes
the shift branch: new path into slot 1, old slot-1 value into slot 8195. -/
lemma update_shape (p : String) (x y : Option String) :
    update_bindings p [(1, x), (8195, y)] = [(1, some p), (8195, x)] := rfl

lemma run_updates_aux (ps : List String) :
    ∀ x y : Option String,
      ∃ x' y',
        List.foldl (fun b p => update_bindings p b) [(1, x), (8195, y)] ps
          = [(1, x'), (8195, y')] ∧
        (x' = x ∨ x' = y ∨ ∃ p ∈ ps, x' = some p) ∧
        (y' = x ∨ y' = y ∨ ∃ p ∈ ps, y' = some p) := by
  induction ps with
  | nil =>
    intro x y
    exact ⟨x, y, rfl, Or.inl rfl, Or.inr (Or.inl rfl)⟩
  | cons p ps ih =>
    intro x y
    rw [List.foldl_cons, update_shape]
    obtain ⟨x', y', heq, hx, hy⟩ := ih (some p) x
    refine ⟨x', y', heq, ?_, ?_⟩
    · rcases hx with h | h | ⟨q, hq, h⟩
      · exact Or.inr (Or.inr ⟨p, List.mem_cons_self p ps, h⟩)
      · exact Or.inl h
      · exact Or.inr (Or.inr ⟨q, List.mem_cons_of_mem p hq, h⟩)
    · rcases hy with h | h | ⟨q, hq, h⟩
      · exact Or.inr (Or.inr ⟨p, List.mem_cons_self p ps, h⟩)
      · exact Or.inl h
      · exact Or.inr (Or.inr ⟨q, List.mem_cons_of_mem p hq, h⟩)

/-! ### Claim theorems: binding table -/

/-- C1: the claim says the first accepted focus signal lands only in the
secondary slot (8195), giving the sequence (None, A), (B, A), (C, B).
The code disagrees: the occupancy test at main.rs line 204 asks whether
`HashMap::get` returned Some, i.e. whether the KEYS are present, which
they always are, so the shift branch runs on every call and the very
first signal lands in slot 1.  This theorem evaluates the code on the
claimed scenario: feeding A, B, C from the initial table yields
(A, None), (B, A), (C, B). -/
theorem bootstrap_lands_in_primary :
    update_bindings ("A") b_bindings_init = [(1, some ("A")), (8195, none)] ∧
    update_bindings ("B") (update_bindings ("A") b_bindings_init)
      = [(1, some ("B")), (8195, some ("A"))] ∧
    update_bindings ("C")
        (update_bindings ("B") (update_bindings ("A") b_bindings_init))
      = [(1, some ("C")), (8195, some ("B"))] :=
  ⟨rfl, rfl, rfl⟩

/-- C2: for every accepted path p and every table in which both slot keys
are present (as they always are in the program), the update sets slot 1 to
Some p and moves the old slot-1 value (possibly absent) into slot 8195:
the shift branch fires on every call. -/
theorem shift_branch_always_taken (p : String) (b : Bindings)
    (h1 : (mapGet b 1).isSome = true) (h2 : (mapGet b 8195).isSome = true) :
    mapGet (update_bindings p b) 1 = some (some p) ∧
    mapGet (update_bindings p b) 8195 = mapGet b 1 := by
  unfold update_bindings
  rw [if_pos (by rw [h1, h2]; rfl)]
  constructor
  · apply mapGet_mapInsert_self
    rw [mapGet_mapInsert_ne b 8195 1 _ (by decide)]
    exact h1
  · rw [mapGet_mapInsert_ne _ 1 8195 _ (by decide)]
    rw [mapGet_mapInsert_self b 8195 _ h2]
    obtain ⟨x, hx⟩ := Option.isSome_iff_exists.mp h1
    rw [hx]
    rfl

/-- Witness for C2 at the initial table and path A. -/
theorem shift_branch_always_taken_witness :
    (mapGet b_bindings_init 1).isSome = true ∧
    (mapGet b_bindings_init 8195).isSome = true ∧
    (mapGet (update_bindings ("A") b_bindings_init) 1 = some (some ("A")) ∧
      mapGet (update_bindings ("A") b_bindings_init) 8195
        = mapGet b_bindings_init 1) :=
  ⟨rfl, rfl, shift_branch_always_taken ("A") b_bindings_init rfl rfl⟩

/-- C5: after any sequence of accepted focus signals the table consists of
exactly the two slots 1 and 8195 (none added, none removed), and every
present slot value is one of the previously accepted subject paths. -/
theorem binding_table_invariant (ps : List String) :
    ∃ x y : Option String,
      run_updates ps = [(1, x), (8195, y)] ∧
      (∀ s, x = some s → s ∈ ps) ∧
      (∀ s, y = some s → s ∈ ps) := by
  obtain ⟨x, y, heq, hx, hy⟩ := run_updates_aux ps none none
  refine ⟨x, y, heq, ?_, ?_⟩
  · intro s hs
    rcases hx with h | h | ⟨q, hq, h⟩
    · rw [h] at hs; exact absurd hs (by simp)
    · rw [h] at hs; exact absurd hs (by simp)
    · rw [h] at hs
      exact (Option.some_inj.mp hs) ▸ hq
  · intro s hs
    rcases hy with h | h | ⟨q, hq, h⟩
    · rw [h] at hs; exact absurd hs (by simp)
    · rw [h] at hs; exact absurd hs (by simp)
    · rw [h] at hs
      exact (Option.some_inj.mp hs) ▸ hq

/-! ### Claim theorems: classifier -/

lemma is_focus_event_eq_true_iff (i m : String) :
    is_focus_event i m = true ↔
      (i = "org.a11y.atspi.Event.Focus" ∧ m = "Focis") ∨
        (i = "org.a11y.atspi.Event.Window" ∧
          (m = "Activate" ∨ m = "activate")) := by
  simp only [is_focus_event, Bool.or_eq_true, Bool.and_eq_true, beq_iff_eq]
  tauto

/-- C4: the classifier returns the path verbatim exactly when the
interface/member pair is the Focus interface with the literal member
Focis (misspelling preserved), or the Window interface with member
Activate or activate; every other combination, Deactivate included,
yields none. -/
theorem classifier_characterisation (i m p : String) :
    classify i m p =
      if (i = "org.a11y.atspi.Event.Focus" ∧ m = "Focis") ∨
          (i = "org.a11y.atspi.Event.Window" ∧
            (m = "Activate" ∨ m = "activate"))
      then some p else none := by
  by_cases h : (i = "org.a11y.atspi.Event.Focus" ∧ m = "Focis") ∨
      (i = "org.a11y.atspi.Event.Window" ∧ (m = "Activate" ∨ m = "activate"))
  · rw [if_pos h]
    unfold classify
    rw [if_pos ((is_focus_event_eq_true_iff i m).mpr h)]
  · rw [if_neg h]
    unfold classify
    rw [if_neg (fun hb => h ((is_focus_event_eq_true_iff i m).mp hb))]

/-- C3 counterexample: the claim says classification never fails or aborts
even for messages lacking a member, interface or path header.  The logging
statement at main.rs lines 182-186 unwraps the member and path headers, so
a message with no member header panics before classification: the handler
result is none (abort). -/
theorem handler_aborts_on_missing_member :
    handle_dbus_message
        ⟨none, some ("org.a11y.atspi.Event.Focus"), some ("/w")⟩
        b_bindings_init
      = none := rfl

/-- C3 amended: for every message that carries both a member and a path
header, the handler never aborts; an unmatched interface/member pair, or a
missing interface header, falls through with the binding table
unchanged. -/
theorem handler_total_with_member_and_path (msg : MsgHeader) (b : Bindings)
    (hm : msg.member.isSome = true) (hp : msg.path.isSome = true) :
    (handle_dbus_message msg b).isSome = true ∧
    (∀ i m pth, msg.interface = some i → msg.member = some m →
      msg.path = some pth → is_focus_event i m = false →
      handle_dbus_message msg b = some b) ∧
    (msg.interface = none → handle_dbus_message msg b = some b) := by
  obtain ⟨mm, ii, pp⟩ := msg
  obtain ⟨mem, hmem⟩ := Option.isSome_iff_exists.mp hm
  obtain ⟨pth, hpth⟩ := Option.isSome_iff_exists.mp hp
  simp only at hmem hpth
  subst hmem hpth
  cases ii with
  | none =>
    refine ⟨rfl, ?_, fun _ => rfl⟩
    intro i m q hi
    exact absurd hi (by simp)
  | some i =>
    refine ⟨?_, ?_, ?_⟩
    · simp only [handle_dbus_message]
      split <;> rfl
    · intro i' m q hi' hm' hq hfe
      simp only [Option.some_inj] at hi' hm' hq
      subst hi' hm' hq
      simp only [handle_dbus_message, hfe]
      rfl
    · intro hi
      exact absurd hi (by simp)

/-- Witness for C3 amended: a Window Deactivate message with all headers
present is classified irrelevant and leaves the table unchanged. -/
theorem handler_total_witness :
    ((⟨some ("Deactivate"), some ("org.a11y.atspi.Event.Window"),
        some ("/x")⟩ : MsgHeader)).member.isSome = true ∧
    ((⟨some ("Deactivate"), some ("org.a11y.atspi.Event.Window"),
        some ("/x")⟩ : MsgHeader)).path.isSome = true ∧
    ((handle_dbus_message
        ⟨some ("Deactivate"), some ("org.a11y.atspi.Event.Window"),
          some ("/x")⟩ b_bindings_init).isSome = true ∧
      (∀ i m pth,
        (⟨some ("Deactivate"), some ("org.a11y.atspi.Event.Window"),
          some ("/x")⟩ : MsgHeader).interface = some i →
        (⟨some ("Deactivate"), some ("org.a11y.atspi.Event.Window"),
          some ("/x")⟩ : MsgHeader).member = some m →
        (⟨some ("Deactivate"), some ("org.a11y.atspi.Event.Window"),
          some ("/x")⟩ : MsgHeader).path = some pth →
        is_focus_event i m = false →
        handle_dbus_message
          ⟨some ("Deactivate"), some ("org.a11y.atspi.Event.Window"),
            some ("/x")⟩ b_bindings_init = some b_bindings_init) ∧
      ((⟨some ("Deactivate"), some ("org.a11y.atspi.Event.Window"),
          some ("/x")⟩ : MsgHeader).interface = none →
        handle_dbus_message
          ⟨some ("Deactivate"), some ("org.a11y.atspi.Event.Window"),
            some ("/x")⟩ b_bindings_init = some b_bindings_init)) :=
  ⟨rfl, rfl,
    handler_total_with_member_and_path
      ⟨some ("Deactivate"), some ("org.a11y.atspi.Event.Window"),
        some ("/x")⟩ b_bindings_init rfl rfl⟩

/-! ### Claim theorems: multiplexer -/

/-- C7 counterexample: the claim says messages from all three
subscriptions are routed through the classifier and update the table.
The object-stream arm (main.rs line 129) has its handler call commented
out: a successfully decoded object-stream message carrying the exact
focus-member literal leaves the table unchanged, while the handler would
have updated it. -/
theorem object_stream_dropped :
    dispatch_bus .object
        (.ok ⟨some ("Focis"), some ("org.a11y.atspi.Event.Focus"),
          some ("/w")⟩)
        b_bindings_init
      = some b_bindings_init ∧
    handle_dbus_message
        ⟨some ("Focis"), some ("org.a11y.atspi.Event.Focus"), some ("/w")⟩
        b_bindings_init
      = some [(1, some ("/w")), (8195, none)] ∧
    ([(1, some ("/w")), (8195, none)] : Bindings) ≠ b_bindings_init :=
  ⟨rfl, rfl, by decide⟩

/-- C7 amended: a successfully decoded message from the window-level or
focus-level subscription is routed through handle_dbus_message (classifier
plus binding-table update); a decoded object-level message is dropped with
no effect. -/
theorem dispatch_routing :
    (∀ (h : MsgHeader) (b : Bindings),
      dispatch_bus .window (.ok h) b = handle_dbus_message h b) ∧
    (∀ (h : MsgHeader) (b : Bindings),
      dispatch_bus .focus (.ok h) b = handle_dbus_message h b) ∧
    (∀ (h : MsgHeader) (b : Bindings),
      dispatch_bus .object (.ok h) b = some b) :=
  ⟨fun _ _ => rfl, fun _ _ => rfl, fun _ _ => rfl⟩

/-- C8: a failed bus-message decode on any subscription leaves the loop
state (binding table and keyboard states) unchanged and the loop
continues, while a dispatch error from the device-event source is fatal
and terminates the process. -/
theorem loop_error_asymmetry :
    (∀ (src : BusSource) (s : LoopState),
      loop_step (.bus src (.error ())) s = .next s) ∧
    (∀ (err : String) (s : LoopState),
      loop_step (.deviceReady (.error err)) s = .fatal) :=
  ⟨fun _ _ => rfl, fun _ _ => rfl⟩

/-! ### Helper lemmas about the keyboard tracker -/

lemma updateAt_self (states : Nat → KeyboardState) (d : Nat)
    (s : KeyboardState) : updateAt states d s d = s := by
  simp [updateAt]

lemma updateAt_of_ne (states : Nat → KeyboardState) (d : Nat)
    (s : KeyboardState) (d' : Nat) (h : d' ≠ d) :
    updateAt states d s d' = states d' := by
  simp [updateAt, h]

lemma notifsFor_append (d : Nat) (ns1 ns2 : List (Nat × Notification)) :
    notifsFor d (ns1 ++ ns2) = notifsFor d ns1 ++ notifsFor d ns2 := by
  simp [notifsFor, List.filter_append]

lemma notifsFor_cons_self (d : Nat) (n : Notification)
    (ns : List (Nat × Notification)) :
    notifsFor d ((d, n) :: ns) = n :: notifsFor d ns := by
  simp [notifsFor, List.filter_cons]

lemma notifsFor_cons_ne (dev d : Nat) (n : Notification)
    (ns : List (Nat × Notification)) (h : dev ≠ d) :
    notifsFor d ((dev, n) :: ns) = notifsFor d ns := by
  have hbeq : (dev == d) = false := beq_eq_false_iff_ne.mpr h
  simp [notifsFor, List.filter_cons, hbeq]

/-- Invariant behind C6: after any event sequence from any starting table,
the notifications attributed to a device d alternate according to the
modifier flag the table held for d at the start. -/
lemma alternating_inv (evs : List LibinputEvent) :
    ∀ (states : Nat → KeyboardState) (d : Nat),
      alternatingB (states d).ctrl_pressed
        (notifsFor d (runEvents states evs).2) = true := by
  induction evs with
  | nil => intro states d; rfl
  | cons e rest ih =>
    intro states d
    cases e with
    | other =>
      exact ih states d
    | keyboard ev =>
      simp only [runEvents]
      by_cases hd : ev.device_id = d
      · subst hd
        cases hks : ev.key_state with
        | Pressed =>
          simp only [handle_keyboard_event, hks]
          split
          · rename_i hcond
            simp only [Bool.and_eq_true] at hcond
            have hfalse : (states ev.device_id).ctrl_pressed = false := by
              simpa using hcond.2
            rw [hfalse]
            simp only [tagOf, deviceOf, List.cons_append, List.nil_append,
              notifsFor_cons_self, alternatingB, Bool.not_false,
              Bool.true_and]
            simpa [updateAt_self] using
              ih (updateAt states ev.device_id ⟨true, ev.device_name⟩)
                ev.device_id
          · simp only [tagOf, List.nil_append]
            exact ih states ev.device_id
        | Released =>
          simp only [handle_keyboard_event, hks]
          split
          · rename_i hcond
            simp only [Bool.and_eq_true] at hcond
            rw [hcond.2]
            simp only [tagOf, deviceOf, List.cons_append, List.nil_append,
              notifsFor_cons_self, alternatingB, Bool.true_and]
            simpa [updateAt_self] using
              ih (updateAt states ev.device_id
                ⟨false, (states ev.device_id).last_device_name⟩)
                ev.device_id
          · simp only [tagOf, List.nil_append]
            exact ih states ev.device_id
      · have hframe :
            ∀ s' : KeyboardState,
              (updateAt states ev.device_id s') d = states d :=
          fun s' => updateAt_of_ne states ev.device_id s' d
            (fun hh => hd hh.symm)
        cases hks : ev.key_state with
        | Pressed =>
          simp only [handle_keyboard_event, hks]
          split
          · simp only [tagOf, deviceOf, List.cons_append, List.nil_append]
            rw [notifsFor_cons_ne ev.device_id d _ _ hd]
            have := ih (updateAt states ev.device_id
              ⟨true, ev.device_name⟩) d
            rwa [hframe] at this
          · simp only [tagOf, List.nil_append]
            exact ih states d
        | Released =>
          simp only [handle_keyboard_event, hks]
          split
          · simp only [tagOf, deviceOf, List.cons_append, List.nil_append]
            rw [notifsFor_cons_ne ev.device_id d _ _ hd]
            have := ih (updateAt states ev.device_id
              ⟨false, (states ev.device_id).last_device_name⟩) d
            rwa [hframe] at this
          · simp only [tagOf, List.nil_append]
            exact ih states d

/-! ### Claim theorems: keyboard tracker -/

/-- C6: for every device and every event sequence, if the device starts
with the modifier not engaged (as every device does, since unseen devices
get KeyboardState.new), the engaged/released notifications attributed to
that device strictly alternate starting with engaged.  In particular a
second press without an intervening release adds no notification, and a
release without a preceding engaged press produces none. -/
theorem modifier_alternation (evs : List LibinputEvent)
    (states : Nat → KeyboardState) (d : Nat)
    (h : (states d).ctrl_pressed = false) :
    alternatingB false (notifsFor d (runEvents states evs).2) = true := by
  have hinv := alternating_inv evs states d
  rwa [h] at hinv

/-- Witness for C6: press, press again (debounced), release on device 5
from the fresh table. -/
theorem modifier_alternation_witness :
    ((fun _ => KeyboardState.new : Nat → KeyboardState) 5).ctrl_pressed
        = false ∧
    alternatingB false (notifsFor 5
      (runEvents (fun _ => KeyboardState.new)
        [.keyboard ⟨5, "kbd", 1, 29, .Pressed⟩,
         .keyboard ⟨5, "kbd", 1, 29, .Pressed⟩,
         .keyboard ⟨5, "kbd", 1, 29, .Released⟩]).2) = true :=
  ⟨rfl,
    modifier_alternation
      [.keyboard ⟨5, "kbd", 1, 29, .Pressed⟩,
       .keyboard ⟨5, "kbd", 1, 29, .Pressed⟩,
       .keyboard ⟨5, "kbd", 1, 29, .Released⟩]
      (fun _ => KeyboardState.new) 5 rfl⟩

/-- An event is a keyboard event whose key code is neither tracked
modifier code (29 or 97). -/
def non_modifier_event : LibinputEvent → Bool
  | .keyboard ev => !(ev.key == Key.LeftCtrl.key || ev.key == Key.RightCtrl.key)
  | .other => false

/-- C9: a sequence made of key events whose key codes are not the tracked
modifier codes produces no notification and leaves the whole per-device
table, in particular every modifier_engaged flag, unchanged. -/
theorem non_modifier_no_effect (evs : List LibinputEvent)
    (states : Nat → KeyboardState)
    (h : evs.all non_modifier_event = true) :
    runEvents states evs = (states, []) := by
  induction evs generalizing states with
  | nil => rfl
  | cons e rest ih =>
    rw [List.all_cons, Bool.and_eq_true] at h
    have hstep : handle_keyboard_event e states = (states, none) := by
      cases e with
      | other => rfl
      | keyboard ev =>
        have hc : (ev.key == Key.LeftCtrl.key
            || ev.key == Key.RightCtrl.key) = false := by
          have := h.1
          simpa [non_modifier_event] using this
        cases hks : ev.key_state with
        | Pressed =>
          simp [handle_keyboard_event, hks, hc]
        | Released =>
          simp [handle_keyboard_event, hks, hc]
    simp only [runEvents, hstep, tagOf, List.nil_append]
    exact ih states h.2

/-- Witness for C9: a press of key code 30 on device 5 has no effect. -/
theorem non_modifier_no_effect_witness :
    ([LibinputEvent.keyboard ⟨5, "kbd", 1, 30, .Pressed⟩].all
        non_modifier_event = true) ∧
    runEvents (fun _ => KeyboardState.new)
        [.keyboard ⟨5, "kbd", 1, 30, .Pressed⟩]
      = ((fun _ => KeyboardState.new), []) :=
  ⟨rfl,
    non_modifier_no_effect [.keyboard ⟨5, "kbd", 1, 30, .Pressed⟩]
      (fun _ => KeyboardState.new) rfl⟩

/-- C10: handling a keyboard event from one device leaves the tracked
state of every other device unchanged, whatever the prior table. -/
theorem per_device_isolation (ev : KeyboardEvent)
    (states : Nat → KeyboardState) (d' : Nat) (h : d' ≠ ev.device_id) :
    (handle_keyboard_event (.keyboard ev) states).1 d' = states d' := by
  cases hks : ev.key_state with
  | Pressed =>
    simp only [handle_keyboard_event, hks]
    split
    · exact updateAt_of_ne states ev.device_id _ d' h
    · rfl
  | Released =>
    simp only [handle_keyboard_event, hks]
    split
    · exact updateAt_of_ne states ev.device_id _ d' h
    · rfl

/-- Witness for C10: a modifier press on device 5 leaves device 7
untouched. -/
theorem per_device_isolation_witness :
    (7 : Nat) ≠ (5 : Nat) ∧
    (handle_keyboard_event (.keyboard ⟨5, "kbd", 1, 29, .Pressed⟩)
        (fun _ => KeyboardState.new)).1 7
      = (fun _ => KeyboardState.new : Nat → KeyboardState) 7 :=
  ⟨by decide,
    per_device_isolation ⟨5, "kbd", 1, 29, .Pressed⟩
      (fun _ => KeyboardState.new) 7 (by decide)⟩

end Fswitcher
